import Mathlib

/-!
Verification of the aws-expect waiting library: a shallow embedding of the
two waiter classes (`DynamoDBItemExpectation` in `aws_expect/dynamodb.py` and
`S3ObjectExpectation` in `aws_expect/s3.py`) together with the exception
hierarchy of `aws_expect/exceptions.py`, and theorems about the polling
loops, the timeout/interval policy, the subset-match predicate and the
typed failures.

Modelling conventions:
* Python values stored in items / parsed JSON bodies are the inductive
  `Value` (null, booleans, rationals for numbers, strings, lists, and
  string-keyed mappings as association lists).  Equality is the structural
  (deep) equality of the spec.
* Time is modelled by rationals.  The monotonic clock starts at an
  arbitrary `t0`; queries are instantaneous and `time.sleep d` advances the
  clock by exactly `d`.
* The backing store is an oracle indexed by the poll number: the `n`-th
  `get_item` / `scan` / `get_object` call receives the `n`-th response.
* Loops are driven by a fuel parameter; `none` means the fuel ran out
  (every claim is stated for an arbitrary positive amount of fuel).
  Each loop returns its outcome together with the number of store queries
  performed.
-/

namespace AwsExpect

/-- A Python/JSON-like value: `None`, booleans, numbers, strings, lists and
string-keyed dicts (association lists). -/
inductive Value where
  | null : Value
  | bool : Bool → Value
  | num : ℚ → Value
  | str : String → Value
  | arr : List Value → Value
  | obj : List (String × Value) → Value
  deriving Repr

mutual

/-- Structural (deep) equality of values is decidable. -/
def Value.decEq : (a b : Value) → Decidable (a = b)
  | .null, .null => isTrue rfl
  | .null, .bool _ => isFalse fun h => nomatch h
  | .null, .num _ => isFalse fun h => nomatch h
  | .null, .str _ => isFalse fun h => nomatch h
  | .null, .arr _ => isFalse fun h => nomatch h
  | .null, .obj _ => isFalse fun h => nomatch h
  | .bool _, .null => isFalse fun h => nomatch h
  | .bool a, .bool b =>
    if h : a = b then isTrue (congrArg Value.bool h)
    else isFalse fun hh => h (by injection hh)
  | .bool _, .num _ => isFalse fun h => nomatch h
  | .bool _, .str _ => isFalse fun h => nomatch h
  | .bool _, .arr _ => isFalse fun h => nomatch h
  | .bool _, .obj _ => isFalse fun h => nomatch h
  | .num _, .null => isFalse fun h => nomatch h
  | .num _, .bool _ => isFalse fun h => nomatch h
  | .num a, .num b =>
    if h : a = b then isTrue (congrArg Value.num h)
    else isFalse fun hh => h (by injection hh)
  | .num _, .str _ => isFalse fun h => nomatch h
  | .num _, .arr _ => isFalse fun h => nomatch h
  | .num _, .obj _ => isFalse fun h => nomatch h
  | .str _, .null => isFalse fun h => nomatch h
  | .str _, .bool _ => isFalse fun h => nomatch h
  | .str _, .num _ => isFalse fun h => nomatch h
  | .str a, .str b =>
    if h : a = b then isTrue (congrArg Value.str h)
    else isFalse fun hh => h (by injection hh)
  | .str _, .arr _ => isFalse fun h => nomatch h
  | .str _, .obj _ => isFalse fun h => nomatch h
  | .arr _, .null => isFalse fun h => nomatch h
  | .arr _, .bool _ => isFalse fun h => nomatch h
  | .arr _, .num _ => isFalse fun h => nomatch h
  | .arr _, .str _ => isFalse fun h => nomatch h
  | .arr xs, .arr ys =>
    match Value.decEqList xs ys with
    | isTrue h => isTrue (congrArg Value.arr h)
    | isFalse h => isFalse fun hh => h (by injection hh)
  | .arr _, .obj _ => isFalse fun h => nomatch h
  | .obj _, .null => isFalse fun h => nomatch h
  | .obj _, .bool _ => isFalse fun h => nomatch h
  | .obj _, .num _ => isFalse fun h => nomatch h
  | .obj _, .str _ => isFalse fun h => nomatch h
  | .obj _, .arr _ => isFalse fun h => nomatch h
  | .obj xs, .obj ys =>
    match Value.decEqEntries xs ys with
    | isTrue h => isTrue (congrArg Value.obj h)
    | isFalse h => isFalse fun hh => h (by injection hh)

/-- Decidable equality for lists of values. -/
def Value.decEqList : (xs ys : List Value) → Decidable (xs = ys)
  | [], [] => isTrue rfl
  | [], _ :: _ => isFalse fun h => nomatch h
  | _ :: _, [] => isFalse fun h => nomatch h
  | x :: xs, y :: ys =>
    match Value.decEq x y with
    | isFalse h => isFalse fun hh => h (by injection hh)
    | isTrue h1 =>
      match Value.decEqList xs ys with
      | isTrue h2 => isTrue (by rw [h1, h2])
      | isFalse h2 => isFalse fun hh => h2 (by injection hh)

/-- Decidable equality for lists of key-value entries. -/
def Value.decEqEntries : (xs ys : List (String × Value)) → Decidable (xs = ys)
  | [], [] => isTrue rfl
  | [], _ :: _ => isFalse fun h => nomatch h
  | _ :: _, [] => isFalse fun h => nomatch h
  | (k, v) :: xs, (k', v') :: ys =>
    if hk : k = k' then
      match Value.decEq v v' with
      | isFalse h =>
        isFalse fun hh => h (by injection hh with h1 h2; injection h1)
      | isTrue hv =>
        match Value.decEqEntries xs ys with
        | isTrue h2 => isTrue (by rw [hk, hv, h2])
        | isFalse h2 => isFalse fun hh => h2 (by injection hh)
    else isFalse fun hh => hk (by injection hh with h1 h2; injection h1)

end

instance : DecidableEq Value := Value.decEq

/-- A Python dict with string keys, as an association list (Python dicts
never contain a duplicate key). -/
abbrev Dict := List (String × Value)

/-- First-match lookup in a dict: `d[k]` when present, `none` otherwise. -/
def dlookup : Dict → String → Option Value
  | [], _ => none
  | (k', v) :: rest, k => if k = k' then some v else dlookup rest k

/-- Python's `d.get(k)`: the stored value, or `None` when the key is absent. -/
def dget (d : Dict) (k : String) : Value :=
  (dlookup d k).getD Value.null

/-- `_matches_entries(item, entries)`: the shared static subset-match
predicate, identical in `DynamoDBItemExpectation` and `S3ObjectExpectation`:
`all(item.get(k) == v for k, v in entries.items())`. -/
def matches_entries (item entries : Dict) : Bool :=
  entries.all fun kv => dget item kv.1 == kv.2

/-- `DynamoDBWaitTimeoutError(table_name, key, timeout)` from
`aws_expect/exceptions.py` (the human-readable message string is display
text only and is not modelled). -/
structure DynamoDBWaitTimeoutError where
  table_name : String
  key : Option Dict
  timeout : ℚ
  deriving DecidableEq, Repr

/-- `S3WaitTimeoutError(bucket, key, timeout)` from
`aws_expect/exceptions.py`. -/
structure S3WaitTimeoutError where
  bucket : String
  key : String
  timeout : ℚ
  deriving DecidableEq, Repr

/-- The common base class `WaitTimeoutError`: every wait-timeout failure is
one of the two service-specific subclasses, so a caller can match on the
specific variant or handle the base type generically. -/
inductive WaitTimeoutError where
  | dynamodb : DynamoDBWaitTimeoutError → WaitTimeoutError
  | s3 : S3WaitTimeoutError → WaitTimeoutError
  deriving DecidableEq, Repr

/-- The `timeout` attribute declared on the base class `WaitTimeoutError`:
available on every subclass instance. -/
def WaitTimeoutError.timeout : WaitTimeoutError → ℚ
  | .dynamodb e => e.timeout
  | .s3 e => e.timeout

/-- `DynamoDBItemExpectation._compute_delay(poll_interval)`:
`max(1, math.ceil(poll_interval))`. -/
def compute_delay (poll_interval : ℚ) : ℤ :=
  max 1 ⌈poll_interval⌉

/-- The tail shared by every poll iteration of every custom loop:
`remaining = deadline - time.monotonic(); if remaining <= 0: raise ...;
time.sleep(min(delay, remaining))`.  `timedOut` means the typed failure is
raised before any sleep; `sleep d` means the loop sleeps exactly `d` and
iterates. -/
inductive DeadlineStep where
  | timedOut : DeadlineStep
  | sleep : ℚ → DeadlineStep
  deriving DecidableEq, Repr

/-- Compute the deadline check / sleep performed at the end of a
non-successful poll iteration. -/
def deadlineStep (delay deadline now : ℚ) : DeadlineStep :=
  if deadline - now ≤ 0 then .timedOut else .sleep (min delay (deadline - now))

/-- Outcome of `to_exist`: the returned item, or the raised typed error. -/
inductive DynItemResult where
  | ok : Dict → DynItemResult
  | err : DynamoDBWaitTimeoutError → DynItemResult
  deriving DecidableEq, Repr

/-- Outcome of the `None`-returning DynamoDB waits (`to_be_empty`,
`to_not_be_empty`, `to_not_exist`). -/
inductive UnitResult where
  | ok : UnitResult
  | err : DynamoDBWaitTimeoutError → UnitResult
  deriving DecidableEq, Repr

/-- The success test of a `to_exist` poll: `item is not None and (entries
is None or self._matches_entries(item, entries))`. -/
def entriesSatisfied (item : Dict) (entries : Option Dict) : Bool :=
  match entries with
  | none => true
  | some e => matches_entries item e

/-- The `while True` loop of `DynamoDBItemExpectation.to_exist`: poll
`get_item`, return the item when found and satisfying `entries`, otherwise
check the deadline and sleep.  `store n` is the `Item` field of the `n`-th
`get_item` response. -/
def toExistAux (store : ℕ → Option Dict) (tbl : String) (key : Dict)
    (entries : Option Dict) (timeout delay deadline : ℚ) :
    ℕ → ℚ → ℕ → Option (DynItemResult × ℕ)
  | 0, _, _ => none
  | fuel + 1, now, polls =>
    match store polls with
    | some item =>
      if entriesSatisfied item entries then some (.ok item, polls + 1)
      else
        match deadlineStep delay deadline now with
        | .timedOut => some (.err ⟨tbl, some key, timeout⟩, polls + 1)
        | .sleep d =>
          toExistAux store tbl key entries timeout delay deadline fuel (now + d) (polls + 1)
    | none =>
      match deadlineStep delay deadline now with
      | .timedOut => some (.err ⟨tbl, some key, timeout⟩, polls + 1)
      | .sleep d =>
        toExistAux store tbl key entries timeout delay deadline fuel (now + d) (polls + 1)

/-- `DynamoDBItemExpectation.to_exist(key, timeout, poll_interval, entries)`
started at monotonic time `t0`: computes `delay` and
`deadline = t0 + timeout` and runs the loop. -/
def dyn_to_exist (store : ℕ → Option Dict) (tbl : String) (key : Dict)
    (timeout poll_interval : ℚ) (entries : Option Dict) (fuel : ℕ) (t0 : ℚ) :
    Option (DynItemResult × ℕ) :=
  toExistAux store tbl key entries timeout ((compute_delay poll_interval : ℤ) : ℚ)
    (t0 + timeout) fuel t0 0

/-- The loop of `DynamoDBItemExpectation.to_not_exist`. -/
def toNotExistAux (store : ℕ → Option Dict) (tbl : String) (key : Dict)
    (timeout delay deadline : ℚ) : ℕ → ℚ → ℕ → Option (UnitResult × ℕ)
  | 0, _, _ => none
  | fuel + 1, now, polls =>
    match store polls with
    | none => some (.ok, polls + 1)
    | some _ =>
      match deadlineStep delay deadline now with
      | .timedOut => some (.err ⟨tbl, some key, timeout⟩, polls + 1)
      | .sleep d =>
        toNotExistAux store tbl key timeout delay deadline fuel (now + d) (polls + 1)

/-- `DynamoDBItemExpectation.to_not_exist(key, timeout, poll_interval)`. -/
def dyn_to_not_exist (store : ℕ → Option Dict) (tbl : String) (key : Dict)
    (timeout poll_interval : ℚ) (fuel : ℕ) (t0 : ℚ) : Option (UnitResult × ℕ) :=
  toNotExistAux store tbl key timeout ((compute_delay poll_interval : ℤ) : ℚ)
    (t0 + timeout) fuel t0 0

/-- The loop of `DynamoDBItemExpectation.to_be_empty`.  `scan n` is the
`Count` field of the `n`-th `scan(Select="COUNT", Limit=1)` response, with
`none` when the response has no `Count` field; the loop reads it as
`response.get("Count", 0)`. -/
def toBeEmptyAux (scan : ℕ → Option ℤ) (tbl : String)
    (timeout delay deadline : ℚ) : ℕ → ℚ → ℕ → Option (UnitResult × ℕ)
  | 0, _, _ => none
  | fuel + 1, now, polls =>
    if (scan polls).getD 0 = 0 then some (.ok, polls + 1)
    else
      match deadlineStep delay deadline now with
      | .timedOut => some (.err ⟨tbl, none, timeout⟩, polls + 1)
      | .sleep d => toBeEmptyAux scan tbl timeout delay deadline fuel (now + d) (polls + 1)

/-- `DynamoDBItemExpectation.to_be_empty(timeout, poll_interval)`. -/
def dyn_to_be_empty (scan : ℕ → Option ℤ) (tbl : String)
    (timeout poll_interval : ℚ) (fuel : ℕ) (t0 : ℚ) : Option (UnitResult × ℕ) :=
  toBeEmptyAux scan tbl timeout ((compute_delay poll_interval : ℤ) : ℚ)
    (t0 + timeout) fuel t0 0

/-- The loop of `DynamoDBItemExpectation.to_not_be_empty`: succeeds when
`response.get("Count", 0) > 0`. -/
def toNotBeEmptyAux (scan : ℕ → Option ℤ) (tbl : String)
    (timeout delay deadline : ℚ) : ℕ → ℚ → ℕ → Option (UnitResult × ℕ)
  | 0, _, _ => none
  | fuel + 1, now, polls =>
    if 0 < (scan polls).getD 0 then some (.ok, polls + 1)
    else
      match deadlineStep delay deadline now with
      | .timedOut => some (.err ⟨tbl, none, timeout⟩, polls + 1)
      | .sleep d => toNotBeEmptyAux scan tbl timeout delay deadline fuel (now + d) (polls + 1)

/-- `DynamoDBItemExpectation.to_not_be_empty(timeout, poll_interval)`. -/
def dyn_to_not_be_empty (scan : ℕ → Option ℤ) (tbl : String)
    (timeout poll_interval : ℚ) (fuel : ℕ) (t0 : ℚ) : Option (UnitResult × ℕ) :=
  toNotBeEmptyAux scan tbl timeout ((compute_delay poll_interval : ℤ) : ℚ)
    (t0 + timeout) fuel t0 0

/-! ### The S3 object waiter -/

/-- Result of `json.loads` on the retrieved body: a parsed value, or a
`json.JSONDecodeError` / `UnicodeDecodeError`. -/
inductive BodyParse where
  | parsed : Value → BodyParse
  | decodeError : BodyParse
  deriving DecidableEq, Repr

/-- Observable outcome of one `get_object` poll attempt: the retrieved
body's parse result, or a raised `botocore` `ClientError` with the given
error code (`err.response["Error"]["Code"]`). -/
inductive GetObjectResult where
  | ok : BodyParse → GetObjectResult
  | clientError : String → GetObjectResult
  deriving DecidableEq, Repr

/-- Outcome of `S3ObjectExpectation` operations that return a dict: the
returned body / metadata, the typed timeout, or a re-raised `ClientError`
(with its error code). -/
inductive S3PollResult where
  | ok : Dict → S3PollResult
  | err : S3WaitTimeoutError → S3PollResult
  | fatal : String → S3PollResult
  deriving DecidableEq, Repr

/-- Outcome of `S3ObjectExpectation.to_not_exist`. -/
inductive S3UnitResult where
  | ok : S3UnitResult
  | err : S3WaitTimeoutError → S3UnitResult
  deriving DecidableEq, Repr

/-- What the `try`/`except` block of one `_poll_for_entries` iteration does
with the poll's outcome. -/
inductive PollClass where
  | success : Dict → PollClass
  | retry : PollClass
  | fatal : String → PollClass
  deriving DecidableEq, Repr

/-- The body of one `_poll_for_entries` iteration: return the parsed body
when it is a dict satisfying the subset match; absorb `NoSuchKey`/`404`
client errors and JSON/Unicode decode failures (and non-dict or
non-matching bodies) as "keep polling"; re-raise any other client error. -/
def s3PollStep (r : GetObjectResult) (entries : Dict) : PollClass :=
  match r with
  | .ok (.parsed (.obj body)) =>
    if matches_entries body entries then .success body else .retry
  | .ok (.parsed _) => .retry
  | .ok .decodeError => .retry
  | .clientError code =>
    if code = "NoSuchKey" ∨ code = "404" then .retry else .fatal code

/-- The `while True` loop of `S3ObjectExpectation._poll_for_entries`.
`store n` is the outcome of the `n`-th `get_object` attempt. -/
def pollForEntriesAux (store : ℕ → GetObjectResult) (bucket okey : String)
    (entries : Dict) (timeout delay deadline : ℚ) :
    ℕ → ℚ → ℕ → Option (S3PollResult × ℕ)
  | 0, _, _ => none
  | fuel + 1, now, polls =>
    match s3PollStep (store polls) entries with
    | .success body => some (.ok body, polls + 1)
    | .fatal code => some (.fatal code, polls + 1)
    | .retry =>
      match deadlineStep delay deadline now with
      | .timedOut => some (.err ⟨bucket, okey, timeout⟩, polls + 1)
      | .sleep d =>
        pollForEntriesAux store bucket okey entries timeout delay deadline fuel
          (now + d) (polls + 1)

/-- The `delay = max(1, math.ceil(poll_interval))` line opening
`S3ObjectExpectation._poll_for_entries`. -/
def s3_poll_delay (poll_interval : ℚ) : ℤ :=
  max 1 ⌈poll_interval⌉

/-- `S3ObjectExpectation._poll_for_entries(timeout, poll_interval, entries)`
started at monotonic time `t0`. -/
def s3_poll_for_entries (store : ℕ → GetObjectResult) (bucket okey : String)
    (timeout poll_interval : ℚ) (entries : Dict) (fuel : ℕ) (t0 : ℚ) :
    Option (S3PollResult × ℕ) :=
  pollForEntriesAux store bucket okey entries timeout
    ((s3_poll_delay poll_interval : ℤ) : ℚ) (t0 + timeout) fuel t0 0

/-- The `WaiterConfig` dict handed to the native boto3 waiters. -/
structure WaiterConfig where
  Delay : ℤ
  MaxAttempts : ℤ
  deriving DecidableEq, Repr

/-- `S3ObjectExpectation._build_waiter_config(timeout, poll_interval)`:
`delay = max(1, ceil(poll_interval)); max_attempts = max(1, ceil(timeout /
delay))`. -/
def build_waiter_config (timeout poll_interval : ℚ) : WaiterConfig :=
  let delay : ℤ := max 1 ⌈poll_interval⌉
  ⟨delay, max 1 ⌈timeout / (delay : ℚ)⌉⟩

/-- `S3ObjectExpectation.to_exist(timeout, poll_interval, entries)`.
When `entries` is given, runs `_poll_for_entries`.  Otherwise delegates to
the native `object_exists` waiter (`native cfg = false` models the waiter
raising `WaiterError`, translated into `S3WaitTimeoutError`) and returns
the `head_object` response `head`; the native path performs no
`get_object` polls, so its reported poll count is `0`. -/
def s3_to_exist (native : WaiterConfig → Bool) (head : Dict)
    (store : ℕ → GetObjectResult) (bucket okey : String)
    (timeout poll_interval : ℚ) (entries : Option Dict) (fuel : ℕ) (t0 : ℚ) :
    Option (S3PollResult × ℕ) :=
  match entries with
  | some e => s3_poll_for_entries store bucket okey timeout poll_interval e fuel t0
  | none =>
    if native (build_waiter_config timeout poll_interval) then some (.ok head, 0)
    else some (.err ⟨bucket, okey, timeout⟩, 0)

/-- `S3ObjectExpectation.to_not_exist(timeout, poll_interval)`: delegates
to the native `object_not_exists` waiter; a `WaiterError` is translated
into `S3WaitTimeoutError`. -/
def s3_to_not_exist (native : WaiterConfig → Bool) (bucket okey : String)
    (timeout poll_interval : ℚ) : S3UnitResult :=
  if native (build_waiter_config timeout poll_interval) then .ok
  else .err ⟨bucket, okey, timeout⟩

/-! ### Theorems -/

/-- In a dict whose keys are distinct (as in every Python dict), lookup of
a present key returns its stored value. -/
theorem dlookup_eq_of_mem_nodup (x : Dict) (hx : (x.map Prod.fst).Nodup) :
    ∀ k v, (k, v) ∈ x → dlookup x k = some v := by
  induction x with
  | nil => intro k v hm; cases hm
  | cons hd tl ih =>
    obtain ⟨k0, v0⟩ := hd
    simp only [List.map_cons, List.nodup_cons] at hx
    intro k v hm
    cases hm with
    | head =>
      simp [dlookup]
    | tail _ hm' =>
      by_cases hk : k = k0
      · subst hk
        exact absurd (List.mem_map_of_mem Prod.fst hm') hx.1
      · simp only [dlookup, if_neg hk]
        exact ih hx.2 k v hm'

/-- C1 (counterexample): the claim states that a match requires every
expected key to be present in the candidate, yet the code reports a match
for the empty candidate against the expectation `{"a": None}`: Python's
`item.get(k)` returns `None` for a missing key, and `None == None` holds,
so the missing key is *not* a non-match when the expected value is null. -/
theorem matches_entries_null_missing_key :
    matches_entries [] [("a", Value.null)] = true ∧
      dlookup [] "a" = none := by
  exact ⟨rfl, rfl⟩

/-- C1 (amended): `_matches_entries(item, entries)` returns true iff for
every pair `(k, v)` in `entries`, either `k` is present in `item` with a
value structurally equal to `v`, or `k` is absent from `item` and `v` is
null (Python's `dict.get` defaults a missing key to `None`).  Missing keys
with a non-null expected value, type mismatches and unequal values are
non-matches, and no error is raised for a missing key. -/
theorem matches_entries_iff_lookup_default (item entries : Dict) :
    matches_entries item entries = true ↔
      ∀ k v, (k, v) ∈ entries →
        dlookup item k = some v ∨ (dlookup item k = none ∧ v = Value.null) := by
  unfold matches_entries
  rw [List.all_eq_true]
  constructor
  · intro h k v hkv
    have h2 := h (k, v) hkv
    rw [beq_iff_eq] at h2
    unfold dget at h2
    cases hl : dlookup item k with
    | some w =>
      left
      rw [hl] at h2
      simp only [Option.getD_some] at h2
      rw [h2]
    | none =>
      right
      rw [hl] at h2
      simp only [Option.getD_none] at h2
      exact ⟨rfl, h2.symm⟩
  · intro h kv hkv
    obtain ⟨k, v⟩ := kv
    rw [beq_iff_eq]
    unfold dget
    rcases h k v hkv with h1 | ⟨h1, h2⟩
    · rw [h1, Option.getD_some]
    · rw [h1, Option.getD_none, h2]

/-- C1 witness: the amended characterization at a concrete one-field
candidate and expectation. -/
theorem matches_entries_iff_lookup_default_witness :
    matches_entries [("a", Value.num 1)] [("a", Value.num 1)] = true := by
  refine (matches_entries_iff_lookup_default
    [("a", Value.num 1)] [("a", Value.num 1)]).mpr ?_
  intro k v hkv
  cases hkv with
  | head => left; rfl
  | tail _ h => cases h

/-- C9: the subset-match predicate accepts the empty expectation against
any candidate, and is reflexive: any dict (with the distinct keys every
Python dict has) matches itself taken as its own expectation. -/
theorem matches_entries_empty_and_refl (x : Dict) :
    matches_entries x [] = true ∧
      ((x.map Prod.fst).Nodup → matches_entries x x = true) := by
  constructor
  · rfl
  · intro hnd
    unfold matches_entries
    rw [List.all_eq_true]
    intro kv hkv
    obtain ⟨k, v⟩ := kv
    rw [beq_iff_eq]
    unfold dget
    rw [dlookup_eq_of_mem_nodup x hnd k v hkv, Option.getD_some]

/-- C9 witness: a concrete two-field dict matches itself and matches the
empty expectation. -/
theorem matches_entries_empty_and_refl_witness :
    matches_entries [("a", Value.num 1), ("b", Value.null)] [] = true ∧
      matches_entries [("a", Value.num 1), ("b", Value.null)]
        [("a", Value.num 1), ("b", Value.null)] = true := by
  have h := matches_entries_empty_and_refl [("a", Value.num 1), ("b", Value.null)]
  exact ⟨h.1, h.2 (by decide)⟩

/-- C4 (counterexample): `poll_interval = -1/2` has a fractional part, yet
the effective delay is `1`, not the ceiling `0`: the claimed "delay is the
ceiling whenever poll_interval has a fractional part" fails for negative
fractional intervals, where the clamp to 1 wins. -/
theorem compute_delay_fractional_counterexample :
    ⌈(-(1 : ℚ)/2)⌉ ≠ ⌊(-(1 : ℚ)/2)⌋ ∧
      ⌈(-(1 : ℚ)/2)⌉ = 0 ∧
      compute_delay (-(1 : ℚ)/2) = 1 ∧
      (1 : ℤ) ≠ 0 := by
  have hc : ⌈(-(1 : ℚ)/2)⌉ = 0 := by
    rw [Int.ceil_eq_iff]
    constructor <;> norm_num
  have hf : ⌊(-(1 : ℚ)/2)⌋ = -1 := by
    rw [Int.floor_eq_iff]
    constructor <;> norm_num
  refine ⟨?_, hc, ?_, by decide⟩
  · rw [hc, hf]; decide
  · unfold compute_delay
    rw [hc]
    decide

/-- C4 (amended): the effective per-poll delay used by every wait
operation of both waiters equals `max(1, ceil(poll_interval))`; it is
exactly `1` whenever `poll_interval ≤ 0`, and it is the ceiling of
`poll_interval` whenever `poll_interval > 0` (in particular for every
positive interval with a fractional part). -/
theorem effective_delay_clamped (poll_interval t : ℚ) :
    compute_delay poll_interval = max 1 ⌈poll_interval⌉ ∧
      (poll_interval ≤ 0 → compute_delay poll_interval = 1) ∧
      (0 < poll_interval → compute_delay poll_interval = ⌈poll_interval⌉) ∧
      s3_poll_delay poll_interval = compute_delay poll_interval ∧
      (build_waiter_config t poll_interval).Delay = compute_delay poll_interval := by
    refine ⟨rfl, ?_, ?_, rfl, rfl⟩
    · intro h
      unfold compute_delay
      have hc : ⌈poll_interval⌉ ≤ 0 := Int.ceil_le.mpr (by exact_mod_cast h)
      omega
    · intro h
      unfold compute_delay
      have hc : 0 < ⌈poll_interval⌉ := Int.ceil_pos.mpr h
      omega

/-- C4 witness: the amended statement at `poll_interval = -3` (clamped to
1) and at `poll_interval = 3/2` (rounded up to 2). -/
theorem effective_delay_clamped_witness :
    compute_delay (-3 : ℚ) = 1 ∧ compute_delay ((3 : ℚ)/2) = ⌈((3 : ℚ)/2)⌉ := by
  exact ⟨(effective_delay_clamped (-3) 0).2.1 (by norm_num),
    (effective_delay_clamped ((3 : ℚ)/2) 0).2.2.1 (by norm_num)⟩

/-- C7: the `WaiterConfig` passed to the native `object_exists` /
`object_not_exists` waiters is `Delay = max(1, ceil(poll_interval))` and
`MaxAttempts = max(1, ceil(timeout / Delay))`; `Delay ≥ 1` (so the
division is by a nonzero quantity) and `MaxAttempts ≥ 1`, so at least one
native attempt is always requested; both native-delegation operations pass
exactly this configuration. -/
theorem waiter_config_formula (timeout poll_interval : ℚ) :
    (build_waiter_config timeout poll_interval).Delay = max 1 ⌈poll_interval⌉ ∧
      (build_waiter_config timeout poll_interval).MaxAttempts =
        max 1 ⌈timeout / ((max 1 ⌈poll_interval⌉ : ℤ) : ℚ)⌉ ∧
      1 ≤ (build_waiter_config timeout poll_interval).Delay ∧
      1 ≤ (build_waiter_config timeout poll_interval).MaxAttempts ∧
      ((build_waiter_config timeout poll_interval).Delay : ℚ) ≠ 0 ∧
      (∀ (native : WaiterConfig → Bool) (head : Dict)
          (store : ℕ → GetObjectResult) (bucket okey : String) (fuel : ℕ) (t0 : ℚ),
        s3_to_exist native head store bucket okey timeout poll_interval none fuel t0 =
          (if native (build_waiter_config timeout poll_interval) then some (.ok head, 0)
           else some (.err ⟨bucket, okey, timeout⟩, 0))) ∧
      (∀ (native : WaiterConfig → Bool) (bucket okey : String),
        s3_to_not_exist native bucket okey timeout poll_interval =
          (if native (build_waiter_config timeout poll_interval) then .ok
           else .err ⟨bucket, okey, timeout⟩)) := by
  refine ⟨rfl, rfl, le_max_left _ _, le_max_left _ _, ?_, fun _ _ _ _ _ _ _ => rfl,
    fun _ _ _ => rfl⟩
  have h1 : (1 : ℤ) ≤ (build_waiter_config timeout poll_interval).Delay :=
    le_max_left _ _
  intro hc
  rw [Int.cast_eq_zero] at hc
  omega

/-- C7 witness: with timeout 30 and poll interval 5 the configuration
requests a positive delay and at least one attempt. -/
theorem waiter_config_formula_witness :
    1 ≤ (build_waiter_config 30 5).Delay ∧
      1 ≤ (build_waiter_config 30 5).MaxAttempts ∧
      ((build_waiter_config 30 5).Delay : ℚ) ≠ 0 := by
  have h := waiter_config_formula 30 5
  exact ⟨h.2.2.1, h.2.2.2.1, h.2.2.2.2.1⟩

/-- One-step unfolding of the `to_exist` loop. -/
theorem toExistAux_succ (store : ℕ → Option Dict) (tbl : String) (key : Dict)
    (entries : Option Dict) (t delay deadline : ℚ) (fuel polls : ℕ) (now : ℚ) :
    toExistAux store tbl key entries t delay deadline (fuel + 1) now polls =
      (match store polls with
       | some item =>
         if entriesSatisfied item entries then some (.ok item, polls + 1)
         else
           match deadlineStep delay deadline now with
           | .timedOut => some (.err ⟨tbl, some key, t⟩, polls + 1)
           | .sleep d =>
             toExistAux store tbl key entries t delay deadline fuel (now + d) (polls + 1)
       | none =>
         match deadlineStep delay deadline now with
         | .timedOut => some (.err ⟨tbl, some key, t⟩, polls + 1)
         | .sleep d =>
           toExistAux store tbl key entries t delay deadline fuel (now + d) (polls + 1)) := rfl

/-- One-step unfolding of the `_poll_for_entries` loop. -/
theorem pollForEntriesAux_succ (store : ℕ → GetObjectResult) (bucket okey : String)
    (entries : Dict) (t delay deadline : ℚ) (fuel polls : ℕ) (now : ℚ) :
    pollForEntriesAux store bucket okey entries t delay deadline (fuel + 1) now polls =
      (match s3PollStep (store polls) entries with
       | .success body => some (.ok body, polls + 1)
       | .fatal code => some (.fatal code, polls + 1)
       | .retry =>
         match deadlineStep delay deadline now with
         | .timedOut => some (.err ⟨bucket, okey, t⟩, polls + 1)
         | .sleep d =>
           pollForEntriesAux store bucket okey entries t delay deadline fuel
             (now + d) (polls + 1)) := rfl

/-- The classification of a `ClientError` poll outcome. -/
theorem s3PollStep_clientError (code : String) (entries : Dict) :
    s3PollStep (.clientError code) entries =
      if code = "NoSuchKey" ∨ code = "404" then .retry else .fatal code := rfl

/-- With a non-positive timeout the very first deadline check already
fires: `remaining = (t0 + timeout) - t0 = timeout ≤ 0`. -/
theorem deadlineStep_start_nonpos (delay t0 t : ℚ) (ht : t ≤ 0) :
    deadlineStep delay (t0 + t) t0 = .timedOut := by
  unfold deadlineStep
  rw [add_sub_cancel_left, if_pos ht]

/-- C2: for every timeout ≤ 0 and every backing-store state, each of the
five polling wait loops (DynamoDB `to_exist`, `to_not_exist`,
`to_be_empty`, `to_not_be_empty` and S3 `_poll_for_entries`) performs
exactly one poll — one store query, whose outcome alone determines the
result — and then either succeeds or raises the typed timeout failure; it
never fails without checking once and never polls a second time
(regardless of the remaining fuel). -/
theorem single_poll_on_nonpositive_timeout
    (store : ℕ → Option Dict) (scan : ℕ → Option ℤ) (ostore : ℕ → GetObjectResult)
    (tbl bucket okey : String) (key : Dict) (entries : Option Dict) (oentries : Dict)
    (t p t0 : ℚ) (fuel : ℕ) (ht : t ≤ 0) :
    dyn_to_exist store tbl key t p entries (fuel + 1) t0 =
      some ((match store 0 with
             | some item =>
               if entriesSatisfied item entries then DynItemResult.ok item
               else DynItemResult.err ⟨tbl, some key, t⟩
             | none => DynItemResult.err ⟨tbl, some key, t⟩), 1) ∧
    dyn_to_not_exist store tbl key t p (fuel + 1) t0 =
      some ((match store 0 with
             | none => UnitResult.ok
             | some _ => UnitResult.err ⟨tbl, some key, t⟩), 1) ∧
    dyn_to_be_empty scan tbl t p (fuel + 1) t0 =
      some ((if (scan 0).getD 0 = 0 then UnitResult.ok
             else UnitResult.err ⟨tbl, none, t⟩), 1) ∧
    dyn_to_not_be_empty scan tbl t p (fuel + 1) t0 =
      some ((if 0 < (scan 0).getD 0 then UnitResult.ok
             else UnitResult.err ⟨tbl, none, t⟩), 1) ∧
    s3_poll_for_entries ostore bucket okey t p oentries (fuel + 1) t0 =
      some ((match s3PollStep (ostore 0) oentries with
             | .success body => S3PollResult.ok body
             | .fatal code => S3PollResult.fatal code
             | .retry => S3PollResult.err ⟨bucket, okey, t⟩), 1) := by
  refine ⟨?_, ?_, ?_, ?_, ?_⟩
  · unfold dyn_to_exist toExistAux
    rw [deadlineStep_start_nonpos _ _ _ ht]
    cases store 0 with
    | some item => cases h : entriesSatisfied item entries <;> simp [h]
    | none => simp
  · unfold dyn_to_not_exist toNotExistAux
    rw [deadlineStep_start_nonpos _ _ _ ht]
    cases store 0 <;> simp
  · unfold dyn_to_be_empty toBeEmptyAux
    rw [deadlineStep_start_nonpos _ _ _ ht]
    cases h : ((scan 0).getD 0 = 0 : Bool) <;> simp_all
  · unfold dyn_to_not_be_empty toNotBeEmptyAux
    rw [deadlineStep_start_nonpos _ _ _ ht]
    by_cases h : 0 < (scan 0).getD 0 <;> simp [h]
  · unfold s3_poll_for_entries pollForEntriesAux
    rw [deadlineStep_start_nonpos _ _ _ ht]
    cases s3PollStep (ostore 0) oentries <;> simp

/-- C2 witness: with an empty store and timeout 0 the item wait polls once
and raises the typed failure. -/
theorem single_poll_on_nonpositive_timeout_witness :
    dyn_to_exist (fun _ => none) "T" [] 0 1 none 1 0 =
      some (DynItemResult.err ⟨"T", some [], 0⟩, 1) := by
  have h := single_poll_on_nonpositive_timeout (fun _ => none) (fun _ => none)
    (fun _ => GetObjectResult.clientError "404") "T" "B" "K" [] none [] 0 1 0 0
    (le_refl 0)
  exact h.1

/-- C3: in the `_poll_for_entries` loop, a `ClientError` whose code is
neither `NoSuchKey` nor `404` aborts the wait at that very poll by
re-raising the error; a `NoSuchKey`/`404` client error, like a
JSON/Unicode decode failure, is absorbed and the loop proceeds to the
usual deadline-check-then-sleep tail. -/
theorem poll_error_discrimination
    (store : ℕ → GetObjectResult) (bucket okey : String) (entries : Dict)
    (t delay deadline now : ℚ) (fuel polls : ℕ) :
    (∀ code, store polls = .clientError code → ¬(code = "NoSuchKey" ∨ code = "404") →
      pollForEntriesAux store bucket okey entries t delay deadline (fuel + 1) now polls =
        some (.fatal code, polls + 1)) ∧
    (∀ code, store polls = .clientError code → (code = "NoSuchKey" ∨ code = "404") →
      pollForEntriesAux store bucket okey entries t delay deadline (fuel + 1) now polls =
        (match deadlineStep delay deadline now with
         | .timedOut => some (.err ⟨bucket, okey, t⟩, polls + 1)
         | .sleep d =>
           pollForEntriesAux store bucket okey entries t delay deadline fuel
             (now + d) (polls + 1))) ∧
    (store polls = .ok .decodeError →
      pollForEntriesAux store bucket okey entries t delay deadline (fuel + 1) now polls =
        (match deadlineStep delay deadline now with
         | .timedOut => some (.err ⟨bucket, okey, t⟩, polls + 1)
         | .sleep d =>
           pollForEntriesAux store bucket okey entries t delay deadline fuel
             (now + d) (polls + 1))) := by
  refine ⟨?_, ?_, ?_⟩
  · intro code hst hcode
    rw [pollForEntriesAux_succ, hst, s3PollStep_clientError, if_neg hcode]
  · intro code hst hcode
    rw [pollForEntriesAux_succ, hst, s3PollStep_clientError, if_pos hcode]
  · intro hst
    rw [pollForEntriesAux_succ, hst]
    rfl

/-- C3 witness: an `AccessDenied` client error on the first poll aborts
immediately, while a `NoSuchKey` error with an already-expired deadline is
absorbed and the loop moves on to the deadline check. -/
theorem poll_error_discrimination_witness :
    pollForEntriesAux (fun _ => .clientError "AccessDenied") "B" "K" [] 0 1 0 1 0 0 =
      some (.fatal "AccessDenied", 1) ∧
    pollForEntriesAux (fun _ => .clientError "NoSuchKey") "B" "K" [] 0 1 0 1 0 0 =
      some (.err ⟨"B", "K", 0⟩, 1) := by
  constructor
  · exact (poll_error_discrimination (fun _ => .clientError "AccessDenied")
      "B" "K" [] 0 1 0 0 0 0).1 "AccessDenied" rfl (by decide)
  · have h := (poll_error_discrimination (fun _ => .clientError "NoSuchKey")
      "B" "K" [] 0 1 0 0 0 0).2.1 "NoSuchKey" rfl (Or.inl rfl)
    rw [h]
    have hd : deadlineStep 1 0 0 = .timedOut := by
      unfold deadlineStep
      rw [if_pos (by norm_num)]
    rw [hd]

/-- C5: at the end of every non-successful poll iteration the loop first
computes `remaining = deadline - now`; if `remaining ≤ 0` it raises the
typed failure before any sleep, and otherwise it sleeps exactly
`min(delay, remaining)` — never more than the remaining time, so the sleep
never overshoots the deadline — and the `to_exist` loop consults exactly
this deadline/sleep step whenever its poll did not succeed. -/
theorem deadline_check_before_sleep
    (delay deadline now t : ℚ) (store : ℕ → Option Dict) (tbl : String)
    (key : Dict) (entries : Option Dict) (fuel polls : ℕ) :
    (deadline - now ≤ 0 → deadlineStep delay deadline now = .timedOut) ∧
    (0 < deadline - now →
      deadlineStep delay deadline now = .sleep (min delay (deadline - now)) ∧
      min delay (deadline - now) ≤ deadline - now ∧
      now + min delay (deadline - now) ≤ deadline) ∧
    ((∀ item, store polls = some item → entriesSatisfied item entries = false) →
      toExistAux store tbl key entries t delay deadline (fuel + 1) now polls =
        (match deadlineStep delay deadline now with
         | .timedOut => some (.err ⟨tbl, some key, t⟩, polls + 1)
         | .sleep d =>
           toExistAux store tbl key entries t delay deadline fuel (now + d) (polls + 1))) := by
  refine ⟨?_, ?_, ?_⟩
  · intro h
    unfold deadlineStep
    rw [if_pos h]
  · intro h
    refine ⟨?_, min_le_right _ _, ?_⟩
    · unfold deadlineStep
      rw [if_neg (not_le.mpr h)]
    · have := min_le_right delay (deadline - now)
      linarith
  · intro h
    rw [toExistAux_succ]
    cases hs : store polls with
    | some item => simp only [hs, h item hs, Bool.false_eq_true, if_false]
    | none => rfl

/-- C5 witness: both branches at concrete states: an expired deadline
raises without sleeping, and with 2 units remaining and delay 5 the loop
sleeps exactly 2, landing exactly on the deadline. -/
theorem deadline_check_before_sleep_witness :
    deadlineStep 5 3 4 = .timedOut ∧
      deadlineStep 5 3 1 = .sleep (min 5 (3 - 1)) ∧
      (1 : ℚ) + min 5 (3 - 1) ≤ 3 := by
  have h1 := (deadline_check_before_sleep 5 3 4 0 (fun _ => none) "T" [] none 0 0).1
    (by norm_num)
  have h2 := (deadline_check_before_sleep 5 3 1 0 (fun _ => none) "T" [] none 0 0).2.1
    (by norm_num)
  exact ⟨h1, h2.1, h2.2.2⟩

/-- C6: whenever a `to_exist` poll finds an item and the expectation is
absent or satisfied by it, the loop returns that full item — exactly as
retrieved from the store, extra fields included — at that very poll, with
no further store queries; in particular a first-poll hit returns after a
single query. -/
theorem to_exist_returns_full_item
    (store : ℕ → Option Dict) (tbl : String) (key : Dict) (entries : Option Dict)
    (t p delay deadline t0 now : ℚ) (fuel polls : ℕ) (item : Dict) :
    (store polls = some item → entriesSatisfied item entries = true →
      toExistAux store tbl key entries t delay deadline (fuel + 1) now polls =
        some (.ok item, polls + 1)) ∧
    (store 0 = some item → entriesSatisfied item entries = true →
      dyn_to_exist store tbl key t p entries (fuel + 1) t0 = some (.ok item, 1)) := by
  constructor
  · intro hs hm
    unfold toExistAux
    rw [hs]
    simp [hm]
  · intro hs hm
    unfold dyn_to_exist toExistAux
    rw [hs]
    simp [hm]

/-- C6 witness: scenario A of the spec — the stored record
`{pk: "user-1", name: "Alice"}` satisfies the expectation `{pk: "user-1"}`
and is returned in full (including `name`) after one poll. -/
theorem to_exist_returns_full_item_witness :
    dyn_to_exist (fun _ => some [("pk", Value.str "user-1"), ("name", Value.str "Alice")])
      "users" [("pk", Value.str "user-1")] 10 1
      (some [("pk", Value.str "user-1")]) 1 0 =
      some (.ok [("pk", Value.str "user-1"), ("name", Value.str "Alice")], 1) := by
  exact (to_exist_returns_full_item
    (fun _ => some [("pk", Value.str "user-1"), ("name", Value.str "Alice")])
    "users" [("pk", Value.str "user-1")]
    (some [("pk", Value.str "user-1")]) 10 1 1 10 0 0 0 0
    [("pk", Value.str "user-1"), ("name", Value.str "Alice")]).2 rfl (by decide)

/-- One-step unfolding of the `to_not_exist` loop. -/
theorem toNotExistAux_succ (store : ℕ → Option Dict) (tbl : String) (key : Dict)
    (t delay deadline : ℚ) (fuel polls : ℕ) (now : ℚ) :
    toNotExistAux store tbl key t delay deadline (fuel + 1) now polls =
      (match store polls with
       | none => some (.ok, polls + 1)
       | some _ =>
         match deadlineStep delay deadline now with
         | .timedOut => some (.err ⟨tbl, some key, t⟩, polls + 1)
         | .sleep d =>
           toNotExistAux store tbl key t delay deadline fuel (now + d) (polls + 1)) := rfl

/-- One-step unfolding of the `to_be_empty` loop. -/
theorem toBeEmptyAux_succ (scan : ℕ → Option ℤ) (tbl : String)
    (t delay deadline : ℚ) (fuel polls : ℕ) (now : ℚ) :
    toBeEmptyAux scan tbl t delay deadline (fuel + 1) now polls =
      (if (scan polls).getD 0 = 0 then some (.ok, polls + 1)
       else
         match deadlineStep delay deadline now with
         | .timedOut => some (.err ⟨tbl, none, t⟩, polls + 1)
         | .sleep d => toBeEmptyAux scan tbl t delay deadline fuel (now + d) (polls + 1)) := rfl

/-- One-step unfolding of the `to_not_be_empty` loop. -/
theorem toNotBeEmptyAux_succ (scan : ℕ → Option ℤ) (tbl : String)
    (t delay deadline : ℚ) (fuel polls : ℕ) (now : ℚ) :
    toNotBeEmptyAux scan tbl t delay deadline (fuel + 1) now polls =
      (if 0 < (scan polls).getD 0 then some (.ok, polls + 1)
       else
         match deadlineStep delay deadline now with
         | .timedOut => some (.err ⟨tbl, none, t⟩, polls + 1)
         | .sleep d => toNotBeEmptyAux scan tbl t delay deadline fuel (now + d) (polls + 1)) := rfl

/-- Any error the `to_exist` loop ever raises carries exactly the bound
table name, the requested key and the requested timeout. -/
theorem toExistAux_err_eq (store : ℕ → Option Dict) (tbl : String) (key : Dict)
    (entries : Option Dict) (t delay deadline : ℚ) :
    ∀ (fuel : ℕ) (now : ℚ) (polls : ℕ) (e : DynamoDBWaitTimeoutError) (n : ℕ),
      toExistAux store tbl key entries t delay deadline fuel now polls =
        some (.err e, n) → e = ⟨tbl, some key, t⟩ := by
  intro fuel
  induction fuel with
  | zero => intro now polls e n h; simp [toExistAux] at h
  | succ fuel ih =>
    intro now polls e n h
    rw [toExistAux_succ] at h
    split at h
    · split at h
      · simp at h
      · split at h
        · simp only [Option.some.injEq, Prod.mk.injEq, DynItemResult.err.injEq] at h
          exact h.1.symm
        · exact ih _ _ e n h
    · split at h
      · simp only [Option.some.injEq, Prod.mk.injEq, DynItemResult.err.injEq] at h
        exact h.1.symm
      · exact ih _ _ e n h

/-- Any error the `to_not_exist` loop ever raises carries exactly the
bound table name, the requested key and the requested timeout. -/
theorem toNotExistAux_err_eq (store : ℕ → Option Dict) (tbl : String) (key : Dict)
    (t delay deadline : ℚ) :
    ∀ (fuel : ℕ) (now : ℚ) (polls : ℕ) (e : DynamoDBWaitTimeoutError) (n : ℕ),
      toNotExistAux store tbl key t delay deadline fuel now polls =
        some (.err e, n) → e = ⟨tbl, some key, t⟩ := by
  intro fuel
  induction fuel with
  | zero => intro now polls e n h; simp [toNotExistAux] at h
  | succ fuel ih =>
    intro now polls e n h
    rw [toNotExistAux_succ] at h
    split at h
    · simp at h
    · split at h
      · simp only [Option.some.injEq, Prod.mk.injEq, UnitResult.err.injEq] at h
        exact h.1.symm
      · exact ih _ _ e n h

/-- Any error the `to_be_empty` loop ever raises carries the table name,
`key = None` and the requested timeout. -/
theorem toBeEmptyAux_err_eq (scan : ℕ → Option ℤ) (tbl : String)
    (t delay deadline : ℚ) :
    ∀ (fuel : ℕ) (now : ℚ) (polls : ℕ) (e : DynamoDBWaitTimeoutError) (n : ℕ),
      toBeEmptyAux scan tbl t delay deadline fuel now polls =
        some (.err e, n) → e = ⟨tbl, none, t⟩ := by
  intro fuel
  induction fuel with
  | zero => intro now polls e n h; simp [toBeEmptyAux] at h
  | succ fuel ih =>
    intro now polls e n h
    rw [toBeEmptyAux_succ] at h
    split at h
    · simp at h
    · split at h
      · simp only [Option.some.injEq, Prod.mk.injEq, UnitResult.err.injEq] at h
        exact h.1.symm
      · exact ih _ _ e n h

/-- Any error the `to_not_be_empty` loop ever raises carries the table
name, `key = None` and the requested timeout. -/
theorem toNotBeEmptyAux_err_eq (scan : ℕ → Option ℤ) (tbl : String)
    (t delay deadline : ℚ) :
    ∀ (fuel : ℕ) (now : ℚ) (polls : ℕ) (e : DynamoDBWaitTimeoutError) (n : ℕ),
      toNotBeEmptyAux scan tbl t delay deadline fuel now polls =
        some (.err e, n) → e = ⟨tbl, none, t⟩ := by
  intro fuel
  induction fuel with
  | zero => intro now polls e n h; simp [toNotBeEmptyAux] at h
  | succ fuel ih =>
    intro now polls e n h
    rw [toNotBeEmptyAux_succ] at h
    split at h
    · simp at h
    · split at h
      · simp only [Option.some.injEq, Prod.mk.injEq, UnitResult.err.injEq] at h
        exact h.1.symm
      · exact ih _ _ e n h

/-- Any timeout error the `_poll_for_entries` loop ever raises carries the
bound bucket, the object key and the requested timeout. -/
theorem pollForEntriesAux_err_eq (store : ℕ → GetObjectResult) (bucket okey : String)
    (entries : Dict) (t delay deadline : ℚ) :
    ∀ (fuel : ℕ) (now : ℚ) (polls : ℕ) (e : S3WaitTimeoutError) (n : ℕ),
      pollForEntriesAux store bucket okey entries t delay deadline fuel now polls =
        some (.err e, n) → e = ⟨bucket, okey, t⟩ := by
  intro fuel
  induction fuel with
  | zero => intro now polls e n h; simp [pollForEntriesAux] at h
  | succ fuel ih =>
    intro now polls e n h
    rw [pollForEntriesAux_succ] at h
    split at h
    · simp at h
    · simp at h
    · split at h
      · simp only [Option.some.injEq, Prod.mk.injEq, S3PollResult.err.injEq] at h
        exact h.1.symm
      · exact ih _ _ e n h

/-- C8: every deadline-exhaustion failure is a service-specific typed
exception carrying the resource identity and the timeout used —
`DynamoDBWaitTimeoutError` with `(table, key, timeout)` for the item
waits, `(table, None, timeout)` for the collection waits, and
`S3WaitTimeoutError` with `(bucket, key, timeout)` for the object waits; a
native-waiter failure is translated into the same typed failure; and both
exception classes inject into the common base `WaitTimeoutError`, whose
`timeout` attribute agrees with the subclass's, so callers can catch
either specifically or generically. -/
theorem timeout_error_payloads (store : ℕ → Option Dict) (scan : ℕ → Option ℤ)
    (ostore : ℕ → GetObjectResult) (tbl bucket okey : String) (key : Dict)
    (entries : Option Dict) (oentries : Dict) (t p : ℚ) :
    (∀ fuel t0 e n, dyn_to_exist store tbl key t p entries fuel t0 =
        some (.err e, n) → e = ⟨tbl, some key, t⟩) ∧
    (∀ fuel t0 e n, dyn_to_not_exist store tbl key t p fuel t0 =
        some (.err e, n) → e = ⟨tbl, some key, t⟩) ∧
    (∀ fuel t0 e n, dyn_to_be_empty scan tbl t p fuel t0 =
        some (.err e, n) → e = ⟨tbl, none, t⟩) ∧
    (∀ fuel t0 e n, dyn_to_not_be_empty scan tbl t p fuel t0 =
        some (.err e, n) → e = ⟨tbl, none, t⟩) ∧
    (∀ fuel t0 e n, s3_poll_for_entries ostore bucket okey t p oentries fuel t0 =
        some (.err e, n) → e = ⟨bucket, okey, t⟩) ∧
    (∀ (native : WaiterConfig → Bool) (head : Dict) fuel t0,
      native (build_waiter_config t p) = false →
        s3_to_exist native head ostore bucket okey t p none fuel t0 =
          some (.err ⟨bucket, okey, t⟩, 0)) ∧
    (∀ (native : WaiterConfig → Bool),
      native (build_waiter_config t p) = false →
        s3_to_not_exist native bucket okey t p = .err ⟨bucket, okey, t⟩) ∧
    (∀ e : DynamoDBWaitTimeoutError,
      (WaitTimeoutError.dynamodb e).timeout = e.timeout) ∧
    (∀ e : S3WaitTimeoutError, (WaitTimeoutError.s3 e).timeout = e.timeout) := by
  refine ⟨?_, ?_, ?_, ?_, ?_, ?_, ?_, fun _ => rfl, fun _ => rfl⟩
  · intro fuel t0 e n h
    exact toExistAux_err_eq store tbl key entries t _ _ fuel t0 0 e n h
  · intro fuel t0 e n h
    exact toNotExistAux_err_eq store tbl key t _ _ fuel t0 0 e n h
  · intro fuel t0 e n h
    exact toBeEmptyAux_err_eq scan tbl t _ _ fuel t0 0 e n h
  · intro fuel t0 e n h
    exact toNotBeEmptyAux_err_eq scan tbl t _ _ fuel t0 0 e n h
  · intro fuel t0 e n h
    exact pollForEntriesAux_err_eq ostore bucket okey oentries t _ _ fuel t0 0 e n h
  · intro native head fuel t0 hn
    unfold s3_to_exist
    rw [hn]
    rfl
  · intro native hn
    unfold s3_to_not_exist
    rw [hn]
    rfl

/-- C8 witness: a failing native waiter is translated into the typed S3
failure, and a timing-out `to_not_exist` poll raises the typed DynamoDB
failure with the requested key and timeout. -/
theorem timeout_error_payloads_witness :
    s3_to_not_exist (fun _ => false) "B" "K" 0 1 = .err ⟨"B", "K", 0⟩ ∧
      (⟨"T", some [], 0⟩ : DynamoDBWaitTimeoutError) = ⟨"T", some [], 0⟩ := by
  have hto := timeout_error_payloads (fun _ => some []) (fun _ => none)
    (fun _ => .clientError "404") "T" "B" "K" [] none [] 0 1
  constructor
  · exact hto.2.2.2.2.2.2.1 (fun _ => false) rfl
  · refine hto.2.1 1 0 ⟨"T", some [], 0⟩ 1 ?_
    unfold dyn_to_not_exist
    rw [show (1 : ℕ) = 0 + 1 from rfl, toNotExistAux_succ,
      deadlineStep_start_nonpos _ 0 0 (le_refl 0)]

/-- C10: if a count-probe scan response has no `Count` field at all, the
collection-level waits read it as 0: `to_be_empty` succeeds on that very
poll, while `to_not_be_empty` treats the table as still empty and proceeds
to the usual deadline-check/sleep tail — and when every response lacks the
field, `to_not_be_empty` can only ever terminate with the typed timeout
failure, never with success; neither operation raises any error for the
missing field. -/
theorem missing_count_treated_as_zero (scan : ℕ → Option ℤ) (tbl : String)
    (t p delay deadline t0 : ℚ) (fuel polls : ℕ) (now : ℚ) :
    (scan polls = none →
      toBeEmptyAux scan tbl t delay deadline (fuel + 1) now polls =
        some (.ok, polls + 1)) ∧
    (scan 0 = none →
      dyn_to_be_empty scan tbl t p (fuel + 1) t0 = some (.ok, 1)) ∧
    (scan polls = none →
      toNotBeEmptyAux scan tbl t delay deadline (fuel + 1) now polls =
        (match deadlineStep delay deadline now with
         | .timedOut => some (.err ⟨tbl, none, t⟩, polls + 1)
         | .sleep d =>
           toNotBeEmptyAux scan tbl t delay deadline fuel (now + d) (polls + 1))) ∧
    ((∀ m, scan m = none) →
      ∀ (fuel' : ℕ) (now' : ℚ) (polls' : ℕ) (r : UnitResult) (n' : ℕ),
        toNotBeEmptyAux scan tbl t delay deadline fuel' now' polls' = some (r, n') →
        r = .err ⟨tbl, none, t⟩) := by
  refine ⟨?_, ?_, ?_, ?_⟩
  · intro hs
    rw [toBeEmptyAux_succ, hs]
    rfl
  · intro hs
    unfold dyn_to_be_empty
    rw [toBeEmptyAux_succ, hs]
    rfl
  · intro hs
    rw [toNotBeEmptyAux_succ, hs]
    rfl
  · intro hall fuel'
    induction fuel' with
    | zero => intro now' polls' r n' h; simp [toNotBeEmptyAux] at h
    | succ fuel' ih =>
      intro now' polls' r n' h
      rw [toNotBeEmptyAux_succ, hall polls'] at h
      rw [if_neg (by simp)] at h
      split at h
      · simp only [Option.some.injEq, Prod.mk.injEq] at h
        exact h.1.symm
      · exact ih _ _ r n' h

/-- C10 witness: with every scan response lacking `Count`, `to_be_empty`
succeeds after a single probe. -/
theorem missing_count_treated_as_zero_witness :
    dyn_to_be_empty (fun _ => none) "T" 5 1 1 0 = some (.ok, 1) := by
  exact (missing_count_treated_as_zero (fun _ => none) "T" 5 1 1 5 0 0 0 0).2.1 rfl

end AwsExpect
